import Mathlib

/-!
Verification of the eTraGo utility library (src/etrago/extras/utilities.py)
against its natural-language specification.

Modelling conventions.
The Python code operates on a PyPSA-style network object whose component
tables (buses, lines, transformers, generators, loads) are pandas
DataFrames.  We shallow-embed each table as a `List` of records.  Index
labels are decimal-integer strings in the data model of this repository;
wherever the code casts them with `astype(int)` and rebuilds them with
`str` (bus ids, generator indices), they are modelled as natural
numbers, so those round trips become identities.  Line index labels are
kept as strings, because `group_parallel_lines` aggregates its
`old_index` column with `np.min` on the string values, which is
lexicographic and not numeric.  Floating-point
columns are modelled as exact rationals `ℚ` (and, where the source takes
a square root, as reals `ℝ`).  Stateful functions become explicit state
passing: a Python function that mutates the network becomes a Lean
function `Network → Network` (possibly paired with its return value).
-/

/-- One row of `network.buses`.  `name` is the index label. -/
structure Bus where
  name : ℕ
  v_nom : ℚ


/-- One row of `network.lines`.  `name` is the index label, kept as a
string (the source never casts the line index to `int`; see the header
note); the remaining fields are the columns touched by
`group_parallel_lines` and the query functions.  String-valued columns
(`geom`, `topo`, `scn_name`, `sub_network`, `type`) are kept as
strings. -/
structure Line where
  name : String
  bus0 : ℕ
  bus1 : ℕ
  b : ℚ
  b_pu : ℚ
  cables : ℚ
  capital_cost : ℚ
  frequency : ℚ
  g : ℚ
  g_pu : ℚ
  length : ℚ
  num_parallel : ℚ
  r : ℚ
  r_pu : ℚ
  s_nom : ℚ
  s_nom_extendable : Bool
  s_nom_max : ℚ
  s_nom_min : ℚ
  s_nom_opt : ℚ
  terrain_factor : ℚ
  v_ang_max : ℚ
  v_ang_min : ℚ
  x : ℚ
  x_pu : ℚ
  geom : String
  topo : String
  scn_name : String
  sub_network : String
  type : String


/-- One row of `network.transformers`. -/
structure Transformer where
  name : ℕ
  bus0 : ℕ
  bus1 : ℕ
  s_nom : ℚ


/-- One row of `network.generators`. -/
structure Generator where
  name : ℕ
  bus : ℕ
  carrier : String
  marginal_cost : ℚ
  p_nom : ℚ


/-- One row of `network.loads`. -/
structure Load where
  name : ℕ
  bus : ℕ


/-- The network container.  `loads_t_p_set` is the time series
`network.loads_t.p_set`: one inner list per load column, one entry per
snapshot.  `carriers` is the list of carrier names. -/
structure Network where
  buses : List Bus
  lines : List Line
  transformers : List Transformer
  generators : List Generator
  loads : List Load
  carriers : List String
  loads_t_p_set : List (List ℚ)


/-! ### The query functions (utilities.py lines 7 to 92)

`buses_of_vlvl`, `buses_grid_linked`, `connected_grid_lines` and
`connected_transformer` build a boolean mask with `isin` and filter a
component table; none of them assigns to any attribute of the network.
Each is embedded as a pure function, plus a `_run` variant that makes
the state passing explicit: it returns the result together with the
network state after the call (which the source never writes to). -/

/-- Function `buses_of_vlvl`: `mask = network.buses.v_nom.isin(voltage_level)`;
returns the index of the filtered bus table. -/
def buses_of_vlvl (network : Network) (voltage_level : List ℚ) : List ℕ :=
  (network.buses.filter (fun b => b.v_nom ∈ voltage_level)).map Bus.name

/-- Function `buses_grid_linked`: buses whose index appears among `lines.bus0` or
`lines.bus1` and whose `v_nom` is in the given list. -/
def buses_grid_linked (network : Network) (voltage_level : List ℚ) : List ℕ :=
  (network.buses.filter (fun b =>
      ((network.lines.map Line.bus0).contains b.name
        || (network.lines.map Line.bus1).contains b.name)
      && b.v_nom ∈ voltage_level)).map Bus.name

/-- Function `connected_grid_lines`: lines with `bus1` or `bus0` among `busids`. -/
def connected_grid_lines (network : Network) (busids : List ℕ) : List Line :=
  network.lines.filter (fun l => l.bus1 ∈ busids || l.bus0 ∈ busids)

/-- Function `connected_transformer`: transformers with `bus0` among `busids`. -/
def connected_transformer (network : Network) (busids : List ℕ) :
    List Transformer :=
  network.transformers.filter (fun t => t.bus0 ∈ busids)

/-- State-passing form of `buses_of_vlvl`: the body only reads
`network.buses`, so the post state is the input state. -/
def buses_of_vlvl_run (network : Network) (voltage_level : List ℚ) :
    List ℕ × Network :=
  (buses_of_vlvl network voltage_level, network)

/-- State-passing form of `buses_grid_linked` (reads only). -/
def buses_grid_linked_run (network : Network) (voltage_level : List ℚ) :
    List ℕ × Network :=
  (buses_grid_linked network voltage_level, network)

/-- State-passing form of `connected_grid_lines` (reads only). -/
def connected_grid_lines_run (network : Network) (busids : List ℕ) :
    List Line × Network :=
  (connected_grid_lines network busids, network)

/-- State-passing form of `connected_transformer` (reads only). -/
def connected_transformer_run (network : Network) (busids : List ℕ) :
    List Transformer × Network :=
  (connected_transformer network busids, network)

/-- C5: for every network and list of voltage levels, `buses_of_vlvl`
returns exactly the index labels of the buses whose `v_nom` is a member
of the list, and no others. -/
theorem C5_buses_of_vlvl_exact (network : Network) (voltage_level : List ℚ)
    (i : ℕ) :
    i ∈ buses_of_vlvl network voltage_level ↔
      ∃ b ∈ network.buses, b.name = i ∧ b.v_nom ∈ voltage_level := by
  simp only [buses_of_vlvl, List.mem_map, List.mem_filter, decide_eq_true_eq]
  constructor
  · rintro ⟨b, ⟨hb, hv⟩, rfl⟩
    exact ⟨b, hb, rfl, hv⟩
  · rintro ⟨b, hb, rfl, hv⟩
    exact ⟨b, ⟨hb, hv⟩, rfl⟩

/-- C7: the four query functions read attributes off the network and
derive a result without mutating it: every component table of the post
state equals the corresponding table of the input network. -/
theorem C7_queries_do_not_mutate (network : Network)
    (voltage_level : List ℚ) (busids : List ℕ) :
    (let n := (buses_of_vlvl_run network voltage_level).2
     n.buses = network.buses ∧ n.lines = network.lines ∧
     n.transformers = network.transformers ∧
     n.generators = network.generators ∧ n.loads = network.loads) ∧
    (let n := (buses_grid_linked_run network voltage_level).2
     n.buses = network.buses ∧ n.lines = network.lines ∧
     n.transformers = network.transformers ∧
     n.generators = network.generators ∧ n.loads = network.loads) ∧
    (let n := (connected_grid_lines_run network busids).2
     n.buses = network.buses ∧ n.lines = network.lines ∧
     n.transformers = network.transformers ∧
     n.generators = network.generators ∧ n.loads = network.loads) ∧
    (let n := (connected_transformer_run network busids).2
     n.buses = network.buses ∧ n.lines = network.lines ∧
     n.transformers = network.transformers ∧
     n.generators = network.generators ∧ n.loads = network.loads) := by
  refine ⟨⟨rfl, rfl, rfl, rfl, rfl⟩, ⟨rfl, rfl, rfl, rfl, rfl⟩,
    ⟨rfl, rfl, rfl, rfl, rfl⟩, ⟨rfl, rfl, rfl, rfl, rfl⟩⟩

/-! ### group_parallel_lines (utilities.py lines 271 to 325)

The source first rewrites every line so that `bus0` carries the
numerically smaller and `bus1` the numerically larger endpoint
(`astype(int)` then `min`/`max` then `str`; with bus ids modelled as
naturals this is `min`/`max`).  It then records the old index, groups by
the ordered pair `(bus0, bus1)` and aggregates each column, and finally
re-indexes the grouped table by the per-group `np.min` of the old
index, taken on the string labels and therefore lexicographic.
pandas `groupby` keeps within-group rows in table order (which the
`x[0]` reducers of `geom`/`topo` rely on, positional fallback on a
string index); the order of the groups themselves is irrelevant to the
properties proved below, so the group keys are taken in first-occurrence
order (`dedup`). -/

/-- Minimum of a list (`np.min` / `Series.min`); `d` is only returned on
the empty list, which the grouping never produces. -/
def listMin {α : Type} [Min α] (d : α) : List α → α
  | [] => d
  | a :: t => t.foldl min a

/-- Mean (`np.mean`) over a group: sum divided by length. -/
def meanQ (xs : List ℚ) : ℚ := xs.sum / xs.length

/-- Reducer `np.reciprocal(np.sum(np.reciprocal(x)))`: the parallel-impedance
reduction. -/
def recipAgg (xs : List ℚ) : ℚ := ((xs.map (fun v => v⁻¹)).sum)⁻¹

/-- The endpoint rewrite of the first loop: `bus0` becomes the smaller,
`bus1` the larger of the two endpoints. -/
def normalizeLine (l : Line) : Line :=
  { l with bus0 := min l.bus0 l.bus1, bus1 := max l.bus0 l.bus1 }

/-- The grouping key `(bus0, bus1)` of a (rewritten) line. -/
def lineKey (l : Line) : ℕ × ℕ := (l.bus0, l.bus1)

/-- The unordered endpoint pair of an original line, as the sorted pair. -/
def upair (l : Line) : ℕ × ℕ := (min l.bus0 l.bus1, max l.bus0 l.bus1)

/-- One aggregated row: the reducers of the `grouped.agg` dictionary,
applied to the member rows `grp` of the group with key `k`, plus the
final `set_value` writes that put the key back into `bus0`/`bus1` and
the re-indexing by the minimal old index.  The `old_index` reducer
`np.min` runs on the string-valued index labels, so it is the
lexicographic minimum (like the other string columns), not a numeric
one. -/
def aggLine (k : ℕ × ℕ) (grp : List Line) : Line where
  name := listMin "" (grp.map Line.name)
  bus0 := k.1
  bus1 := k.2
  b := (grp.map Line.b).sum
  b_pu := (grp.map Line.b_pu).sum
  cables := (grp.map Line.cables).sum
  capital_cost := listMin 0 (grp.map Line.capital_cost)
  frequency := meanQ (grp.map Line.frequency)
  g := (grp.map Line.g).sum
  g_pu := (grp.map Line.g_pu).sum
  length := listMin 0 (grp.map Line.length)
  num_parallel := (grp.map Line.num_parallel).sum
  r := recipAgg (grp.map Line.r)
  r_pu := recipAgg (grp.map Line.r_pu)
  s_nom := (grp.map Line.s_nom).sum
  s_nom_extendable := (grp.map Line.s_nom_extendable).all (fun v => v)
  s_nom_max := (grp.map Line.s_nom_max).sum
  s_nom_min := (grp.map Line.s_nom_min).sum
  s_nom_opt := (grp.map Line.s_nom_opt).sum
  terrain_factor := listMin 0 (grp.map Line.terrain_factor)
  v_ang_max := listMin 0 (grp.map Line.v_ang_max)
  v_ang_min := listMin 0 (grp.map Line.v_ang_min)
  x := recipAgg (grp.map Line.x)
  x_pu := recipAgg (grp.map Line.x_pu)
  geom := (grp.map Line.geom).headI
  topo := (grp.map Line.topo).headI
  scn_name := listMin "" (grp.map Line.scn_name)
  sub_network := listMin "" (grp.map Line.sub_network)
  type := listMin "" (grp.map Line.type)

/-- Function `group_parallel_lines`: rewrite endpoints, group by `(bus0, bus1)`,
aggregate each group, and replace `network.lines` by the result. -/
def group_parallel_lines (network : Network) : Network :=
  let old_lines := network.lines.map normalizeLine
  let keys := (old_lines.map lineKey).dedup
  { network with
    lines := keys.map (fun k =>
      aggLine k (old_lines.filter (fun l => lineKey l = k))) }

lemma lineKey_normalizeLine (l : Line) : lineKey (normalizeLine l) = upair l := rfl

lemma lineKey_aggLine (k : ℕ × ℕ) (grp : List Line) :
    lineKey (aggLine k grp) = k := by
  cases k with
  | mk a c => rfl

/-- Filtering the rewritten table by a key is the rewrite of the filter of
the original table by the corresponding unordered pair. -/
lemma filter_map_normalizeLine (ls : List Line) (k : ℕ × ℕ) :
    (ls.map normalizeLine).filter (fun l => lineKey l = k)
      = (ls.filter (fun l => upair l = k)).map normalizeLine := by
  rw [List.filter_map]
  rfl

/-- In a duplicate-free list, the sublist of entries equal to a present
element has length one. -/
lemma length_filter_eq_one_of_nodup {α : Type} [DecidableEq α]
    {l : List α} {a : α} (h : l.Nodup) (ha : a ∈ l) :
    (l.filter (fun v => v = a)).length = 1 := by
  induction l with
  | nil => cases ha
  | cons b t ih =>
    rcases List.nodup_cons.mp h with ⟨hbt, hnt⟩
    by_cases hab : b = a
    · subst hab
      have hfil : t.filter (fun v => v = b) = [] :=
        List.filter_eq_nil_iff.mpr (fun v hv => by
          simp only [decide_eq_true_eq]
          rintro rfl
          exact hbt hv)
      simp [List.filter_cons, hfil]
    · have hat : a ∈ t := by
        rcases List.mem_cons.mp ha with h1 | h1
        · exact absurd h1.symm hab
        · exact h1
      simp only [List.filter_cons, decide_eq_true_eq, hab, if_false]
      simpa using ih hnt hat

/-- Congruence for mapping a field accessor over rewritten lines: any
accessor unchanged by `normalizeLine` maps equally over the rewritten
and the original rows. -/
lemma map_field_map_normalize {α : Type} (f : Line → α)
    (hf : ∀ l, f (normalizeLine l) = f l) (G : List Line) :
    (G.map normalizeLine).map f = G.map f := by
  rw [List.map_map]
  exact List.map_congr_left (fun l _ => hf l)

/-- The aggregation only reads columns that the endpoint rewrite keeps,
so aggregating the rewritten rows equals aggregating the original rows. -/
lemma aggLine_map_normalize (k : ℕ × ℕ) (G : List Line) :
    aggLine k (G.map normalizeLine) = aggLine k G := by
  unfold aggLine
  rw [map_field_map_normalize Line.name (fun l => rfl),
    map_field_map_normalize Line.b (fun l => rfl),
    map_field_map_normalize Line.b_pu (fun l => rfl),
    map_field_map_normalize Line.cables (fun l => rfl),
    map_field_map_normalize Line.capital_cost (fun l => rfl),
    map_field_map_normalize Line.frequency (fun l => rfl),
    map_field_map_normalize Line.g (fun l => rfl),
    map_field_map_normalize Line.g_pu (fun l => rfl),
    map_field_map_normalize Line.length (fun l => rfl),
    map_field_map_normalize Line.num_parallel (fun l => rfl),
    map_field_map_normalize Line.r (fun l => rfl),
    map_field_map_normalize Line.r_pu (fun l => rfl),
    map_field_map_normalize Line.s_nom (fun l => rfl),
    map_field_map_normalize Line.s_nom_extendable (fun l => rfl),
    map_field_map_normalize Line.s_nom_max (fun l => rfl),
    map_field_map_normalize Line.s_nom_min (fun l => rfl),
    map_field_map_normalize Line.s_nom_opt (fun l => rfl),
    map_field_map_normalize Line.terrain_factor (fun l => rfl),
    map_field_map_normalize Line.v_ang_max (fun l => rfl),
    map_field_map_normalize Line.v_ang_min (fun l => rfl),
    map_field_map_normalize Line.x (fun l => rfl),
    map_field_map_normalize Line.x_pu (fun l => rfl),
    map_field_map_normalize Line.geom (fun l => rfl),
    map_field_map_normalize Line.topo (fun l => rfl),
    map_field_map_normalize Line.scn_name (fun l => rfl),
    map_field_map_normalize Line.sub_network (fun l => rfl),
    map_field_map_normalize Line.type (fun l => rfl)]

lemma group_parallel_lines_lines_eq (network : Network) :
    (group_parallel_lines network).lines
      = ((network.lines.map normalizeLine).map lineKey).dedup.map
          (fun k => aggLine k ((network.lines.map normalizeLine).filter
            (fun l => lineKey l = k))) := rfl

/-- C1: `group_parallel_lines` replaces `network.lines` by one aggregated
line per unordered endpoint pair: for every original line there is exactly
one resulting line with that unordered pair, and every resulting line
carries the per-column reducers over its group (the original lines with
the same unordered pair): sums for `b`, `b_pu`, `cables`, `g`, `g_pu`,
`num_parallel`, `s_nom`, `s_nom_max`, `s_nom_min`, `s_nom_opt`; group
minimum for `capital_cost` and `length`; group mean for `frequency`;
reciprocal of the sum of reciprocals for `r`, `r_pu`, `x`, `x_pu`; and
the lexicographically smallest old index label of the group as its
index (`np.min` on the string column; this is the numerically smallest
label only when the labels of the group have equal digit lengths, see
the counterexample below). -/
theorem C1_group_parallel_lines_agg (network : Network) :
    (∀ l ∈ network.lines,
      ((group_parallel_lines network).lines.filter
          (fun l2 => lineKey l2 = upair l)).length = 1) ∧
    (∀ l2 ∈ (group_parallel_lines network).lines,
      l2.b = ((network.lines.filter (fun l0 => upair l0 = lineKey l2)).map Line.b).sum ∧
      l2.b_pu = ((network.lines.filter (fun l0 => upair l0 = lineKey l2)).map Line.b_pu).sum ∧
      l2.cables = ((network.lines.filter (fun l0 => upair l0 = lineKey l2)).map Line.cables).sum ∧
      l2.g = ((network.lines.filter (fun l0 => upair l0 = lineKey l2)).map Line.g).sum ∧
      l2.g_pu = ((network.lines.filter (fun l0 => upair l0 = lineKey l2)).map Line.g_pu).sum ∧
      l2.num_parallel = ((network.lines.filter (fun l0 => upair l0 = lineKey l2)).map Line.num_parallel).sum ∧
      l2.s_nom = ((network.lines.filter (fun l0 => upair l0 = lineKey l2)).map Line.s_nom).sum ∧
      l2.s_nom_max = ((network.lines.filter (fun l0 => upair l0 = lineKey l2)).map Line.s_nom_max).sum ∧
      l2.s_nom_min = ((network.lines.filter (fun l0 => upair l0 = lineKey l2)).map Line.s_nom_min).sum ∧
      l2.s_nom_opt = ((network.lines.filter (fun l0 => upair l0 = lineKey l2)).map Line.s_nom_opt).sum ∧
      l2.capital_cost = listMin 0 ((network.lines.filter (fun l0 => upair l0 = lineKey l2)).map Line.capital_cost) ∧
      l2.length = listMin 0 ((network.lines.filter (fun l0 => upair l0 = lineKey l2)).map Line.length) ∧
      l2.frequency = meanQ ((network.lines.filter (fun l0 => upair l0 = lineKey l2)).map Line.frequency) ∧
      l2.r = recipAgg ((network.lines.filter (fun l0 => upair l0 = lineKey l2)).map Line.r) ∧
      l2.r_pu = recipAgg ((network.lines.filter (fun l0 => upair l0 = lineKey l2)).map Line.r_pu) ∧
      l2.x = recipAgg ((network.lines.filter (fun l0 => upair l0 = lineKey l2)).map Line.x) ∧
      l2.x_pu = recipAgg ((network.lines.filter (fun l0 => upair l0 = lineKey l2)).map Line.x_pu) ∧
      l2.name = listMin "" ((network.lines.filter (fun l0 => upair l0 = lineKey l2)).map Line.name)) := by
  constructor
  · intro l hl
    rw [group_parallel_lines_lines_eq, List.filter_map, List.length_map]
    have hcomp : ((fun l2 => decide (lineKey l2 = upair l)) ∘
        (fun k => aggLine k ((network.lines.map normalizeLine).filter
          (fun l0 => lineKey l0 = k))))
        = fun k => decide (k = upair l) := by
      funext k
      simp only [Function.comp, lineKey_aggLine]
    rw [hcomp]
    refine length_filter_eq_one_of_nodup (List.nodup_dedup _) ?_
    refine List.mem_dedup.mpr ?_
    exact List.mem_map_of_mem lineKey (List.mem_map_of_mem normalizeLine hl)
  · intro l2 hl2
    rw [group_parallel_lines_lines_eq] at hl2
    rcases List.mem_map.mp hl2 with ⟨k, hk, rfl⟩
    rw [lineKey_aggLine, filter_map_normalizeLine, aggLine_map_normalize]
    exact ⟨rfl, rfl, rfl, rfl, rfl, rfl, rfl, rfl, rfl, rfl, rfl, rfl, rfl,
      rfl, rfl, rfl, rfl, rfl⟩

/-- C9: after `group_parallel_lines`, every line of `network.lines` has
its numerically smaller endpoint in `bus0` and its larger one in `bus1`. -/
theorem C9_grouped_lines_bus_sorted (network : Network) :
    ∀ l2 ∈ (group_parallel_lines network).lines, l2.bus0 ≤ l2.bus1 := by
  intro l2 hl2
  rw [group_parallel_lines_lines_eq] at hl2
  rcases List.mem_map.mp hl2 with ⟨k, hk, rfl⟩
  rcases List.mem_map.mp (List.mem_dedup.mp hk) with ⟨l3, hl3, rfl⟩
  rcases List.mem_map.mp hl3 with ⟨l4, hl4, rfl⟩
  show min l4.bus0 l4.bus1 ≤ max l4.bus0 l4.bus1
  exact min_le_max

/-- A concrete line for witness networks: index `nm`, endpoints `b0`,
`b1`, resistance and reactance `rv`, all other columns zeroed. -/
def mkLineW (nm : String) (b0 b1 : ℕ) (rv : ℚ) : Line where
  name := nm
  bus0 := b0
  bus1 := b1
  b := 0
  b_pu := 0
  cables := 3
  capital_cost := 1
  frequency := 50
  g := 0
  g_pu := 0
  length := 1
  num_parallel := 1
  r := rv
  r_pu := rv
  s_nom := 100
  s_nom_extendable := false
  s_nom_max := 100
  s_nom_min := 0
  s_nom_opt := 0
  terrain_factor := 1
  v_ang_max := 1
  v_ang_min := 0
  x := rv
  x_pu := rv
  geom := "g"
  topo := "t"
  scn_name := "s"
  sub_network := "sn"
  type := "ty"

/-- A concrete one-line witness network whose single line has its
endpoints in descending order. -/
def W1 : Network where
  buses := []
  lines := [mkLineW "7" 5 3 2]
  transformers := []
  generators := []
  loads := []
  carriers := []
  loads_t_p_set := []

theorem C9_grouped_lines_bus_sorted_witness :
    (aggLine (3, 5) ((W1.lines.map normalizeLine).filter
        (fun l => lineKey l = (3, 5)))).bus0
      ≤ (aggLine (3, 5) ((W1.lines.map normalizeLine).filter
        (fun l => lineKey l = (3, 5)))).bus1 :=
  C9_grouped_lines_bus_sorted W1 _ (List.Mem.head _)

/-- The numeric value of a decimal index label. -/
def decimalVal (s : String) : ℕ :=
  s.data.foldl (fun n c => 10 * n + (c.toNat - 48)) 0

/-- The numeric reading of the final conjunct of claim C1: every line
produced by `group_parallel_lines` keeps the numerically smallest old
index of its group, that is, its index value is less than or equal to
the index value of every original line with the same unordered pair. -/
def keepsNumericallySmallestOldIndex (network : Network) : Prop :=
  ∀ l2 ∈ (group_parallel_lines network).lines,
    ∀ l0 ∈ network.lines, upair l0 = lineKey l2 →
      decimalVal l2.name ≤ decimalVal l0.name

/-- Two parallel lines between buses 1 and 2 whose index labels have
different digit lengths. -/
def W3 : Network where
  buses := []
  lines := [mkLineW "9" 1 2 2, mkLineW "10" 1 2 2]
  transformers := []
  generators := []
  loads := []
  carriers := []
  loads_t_p_set := []

/-- C1 counterexample: `np.min` over the string-valued `old_index`
column is lexicographic, so the group with labels `"9"` and `"10"`
keeps `"10"` (since `"10" < "9"` as strings), not the numerically
smallest old index 9. -/
theorem C1_group_parallel_lines_cex : ¬ keepsNumericallySmallestOldIndex W3 := by
  intro h
  have h10lt9 : ("10" : String) < "9" := by
    rw [String.lt_iff_toList_lt]
    decide
  have hname : (aggLine (1, 2) ((W3.lines.map normalizeLine).filter
      (fun l => lineKey l = (1, 2)))).name = "10" := by
    show min "9" "10" = "10"
    exact min_eq_right h10lt9.le
  have hmem : aggLine (1, 2) ((W3.lines.map normalizeLine).filter
      (fun l => lineKey l = (1, 2))) ∈ (group_parallel_lines W3).lines :=
    List.Mem.head _
  have h9mem : mkLineW "9" 1 2 2 ∈ W3.lines := List.Mem.head _
  have hle := h _ hmem _ h9mem rfl
  rw [hname, show decimalVal "10" = 10 from rfl,
    show decimalVal (mkLineW "9" 1 2 2).name = 9 from rfl] at hle
  omega

/-! ### parallelisation (utilities.py lines 184 to 194)

`parallelisation` runs
`for i in range(int((end_h-start_h+1)/group_size)):
network.lopf(network.snapshots[group_size*i:group_size*i+group_size], ...)`.
We embed the loop by the sequence of snapshot windows handed to
`network.lopf`: snapshots are modelled by their positions
`0, ..., n_snapshots - 1`, and a slice `snapshots[a:b]` becomes
`((List.range n_snapshots).drop a).take (b - a)`.  The iteration count
`int((end_h - start_h + 1)/group_size)` is written `(end_h + 1 -
start_h) / group_size` over `ℕ`, which agrees with the Python value
(floor of a nonnegative quotient) whenever `start_h ≤ end_h + 1`. -/

/-- The list of snapshot windows solved by `parallelisation`, in call
order: window `i` is `snapshots[group_size*i : group_size*i+group_size]`. -/
def parallelisation (n_snapshots start_h end_h group_size : ℕ) :
    List (List ℕ) :=
  (List.range ((end_h + 1 - start_h) / group_size)).map
    (fun i => ((List.range n_snapshots).drop (group_size * i)).take group_size)

/-- The coverage property asserted by the claim, with snapshot `j` of the
range read as position `j` (the 1-based reading fails on the same
counterexample input below, since the code always starts at position 0):
every snapshot from `start_h` to `end_h` is solved exactly once, and no
snapshot outside that range is solved. -/
def parallelisationClaim (n_snapshots start_h end_h group_size : ℕ) : Prop :=
  (parallelisation n_snapshots start_h end_h group_size).length
      = (end_h + 1 - start_h) / group_size
    ∧ ∀ j < n_snapshots,
        (parallelisation n_snapshots start_h end_h group_size).flatten.count j
          = if start_h ≤ j ∧ j ≤ end_h then 1 else 0

lemma range'_append_own (a m n : ℕ) :
    List.range' a m ++ List.range' (a + m) n = List.range' a (m + n) := by
  induction m generalizing a with
  | zero => simp
  | succ m ih =>
    rw [List.range'_succ, List.cons_append,
      show a + (m + 1) = (a + 1) + m by omega,
      show m + 1 + n = (m + n) + 1 by omega, List.range'_succ,
      ← ih (a + 1)]

lemma take_range'_own (g a m : ℕ) :
    (List.range' a m).take g = List.range' a (min g m) := by
  induction g generalizing a m with
  | zero => simp
  | succ g ih =>
    cases m with
    | zero => simp
    | succ m =>
      rw [List.range'_succ, List.take_cons, Nat.add_sub_cancel, ih (a + 1) m,
        show min (g + 1) (m + 1) = min g m + 1 by omega, List.range'_succ]
      omega

lemma drop_range'_own (d a m : ℕ) :
    (List.range' a m).drop d = List.range' (a + d) (m - d) := by
  induction d generalizing a m with
  | zero => simp
  | succ d ih =>
    cases m with
    | zero => simp
    | succ m =>
      rw [List.range'_succ, List.drop_succ_cons, ih (a + 1) m]
      congr 1 <;> omega

/-- A slice `snapshots[a : a+g]` of the snapshot positions. -/
lemma window_eq (n g a : ℕ) :
    ((List.range n).drop a).take g = List.range' a (min g (n - a)) := by
  rw [List.range_eq_range', drop_range'_own, take_range'_own, Nat.zero_add]

lemma count_range'_own (j a m : ℕ) :
    (List.range' a m).count j = if a ≤ j ∧ j < a + m then 1 else 0 := by
  induction m generalizing a with
  | zero =>
    have hno : ¬(a ≤ j ∧ j < a) := by omega
    simp [hno]
  | succ m ih =>
    rw [List.range'_succ, List.count_cons, ih (a + 1)]
    simp only [beq_iff_eq]
    split_ifs <;> omega

/-- Counting one snapshot across all windows: the snapshots solved
exactly once are exactly the first `g * k` positions (clamped to the
snapshot count), where `k` is the number of windows. -/
lemma count_windows (n g k j : ℕ) :
    (((List.range k).map
        (fun i => ((List.range n).drop (g * i)).take g)).flatten.count j)
      = if j < n ∧ j < g * k then 1 else 0 := by
  induction k with
  | zero => simp
  | succ k ih =>
    rw [List.range_succ, List.map_append, List.flatten_append,
      List.count_append, ih]
    simp only [List.map_cons, List.map_nil, List.flatten_cons,
      List.flatten_nil, List.append_nil]
    rw [window_eq, count_range'_own, Nat.mul_succ]
    rcases Nat.le_total g (n - g * k) with hmin | hmin
    · rw [min_eq_left hmin]
      split_ifs <;> omega
    · rw [min_eq_right hmin]
      split_ifs <;> omega

/-- C3 counterexample: with 6 snapshots, `start_h = 2`, `end_h = 5` and
`group_size = 2`, the loop makes 2 calls covering snapshot positions 0
to 3, so position 0 (before `start_h`) is solved and position 5 (inside
the range) is not: the claimed coverage is false. -/
theorem C3_parallelisation_cex : ¬ parallelisationClaim 6 2 5 2 := by
  unfold parallelisationClaim
  decide

/-- C3 (amended): `parallelisation` invokes `network.lopf` exactly
`(end_h - start_h + 1) / group_size` times, but the windows always start
at the first snapshot: the snapshots solved exactly once are exactly the
first `group_size * ((end_h - start_h + 1) / group_size)` snapshot
positions, irrespective of `start_h`; every other snapshot is not solved
at all. -/
theorem C3_parallelisation_amended
    (n_snapshots start_h end_h group_size : ℕ) (hg : 0 < group_size) :
    (parallelisation n_snapshots start_h end_h group_size).length
        = (end_h + 1 - start_h) / group_size
    ∧ ∀ j : ℕ,
        (parallelisation n_snapshots start_h end_h group_size).flatten.count j
          = if j < n_snapshots
                ∧ j < group_size * ((end_h + 1 - start_h) / group_size)
            then 1 else 0 := by
  constructor
  · rw [parallelisation, List.length_map, List.length_range]
  · intro j
    rw [parallelisation, count_windows]

theorem C3_parallelisation_amended_witness :
    0 < 2
    ∧ ((parallelisation 6 2 5 2).length = (5 + 1 - 2) / 2
      ∧ ∀ j : ℕ, (parallelisation 6 2 5 2).flatten.count j
          = if j < 6 ∧ j < 2 * ((5 + 1 - 2) / 2) then 1 else 0) :=
  ⟨by decide, C3_parallelisation_amended 6 2 5 2 (by decide)⟩

/-! ### load_shedding (utilities.py lines 95 to 130)

`load_shedding` computes `start = network.generators.index.astype(int).max()`
(in the natural-number model: the maximum generator index), builds the
`nums = len(network.buses.index)` new string indices
`str(start), ..., str(start + nums - 1)`, and imports one generator per
bus with carrier `load shedding`, the given or default marginal cost and
the given or default `p_nom`.  The `**kwargs` pair becomes two `Option ℚ`
arguments.  `import_components_from_dataframe` is third-party PyPSA; it
is modelled as appending the built rows to `network.generators` (the
collision of the first new index with the existing maximal index is
exactly what claim C8 records).  On a network with no generators the
source raises (`max()` of an empty index is NaN and `range(nan, nan)` is
a `TypeError`); this failure is modelled by returning `none`. -/

/-- Maximum of a list of rationals; `0` only on the empty list.  Models
`loads_t.p_set.max().max()` once applied to the flattened series. -/
def listMaxQ : List ℚ → ℚ
  | [] => 0
  | a :: t => t.foldl max a

/-- Function `load_shedding`. -/
def load_shedding (network : Network) (marginal_cost p_nom : Option ℚ) :
    Option Network :=
  let marginal_cost_def : ℚ := 10000
  let p_nom_def : ℚ := listMaxQ network.loads_t_p_set.flatten
  let mc := marginal_cost.getD marginal_cost_def
  let pn := p_nom.getD p_nom_def
  let n1 : Network := { network with
    carriers := if "load" ∈ network.carriers then network.carriers
                else network.carriers ++ ["load"] }
  match (network.generators.map Generator.name).max? with
  | none => none
  | some start =>
    let nums := network.buses.length
    let index := List.range' start nums
    some { n1 with
      generators := n1.generators ++
        (index.zip n1.buses).map
          (fun p => ⟨p.1, p.2.name, "load shedding", mc, pn⟩) }

/-- The post-state asserted by claim C4, following its words: the call
succeeds, the existing generator rows survive unchanged as a prefix, one
new generator row exists per bus (in bus-table order), and every new row
carries carrier `load shedding`, the given or default marginal cost and
the given or default `p_nom`. -/
def loadSheddingClaim (network : Network) (mc pn : Option ℚ) : Prop :=
  ∃ n2, load_shedding network mc pn = some n2
    ∧ n2.generators.take network.generators.length = network.generators
    ∧ (n2.generators.drop network.generators.length).map Generator.bus
        = network.buses.map Bus.name
    ∧ ∀ g2 ∈ n2.generators.drop network.generators.length,
        g2.carrier = "load shedding"
        ∧ g2.marginal_cost = mc.getD 10000
        ∧ g2.p_nom = pn.getD (listMaxQ network.loads_t_p_set.flatten)

/-- A network with one bus and no generators. -/
def W0 : Network where
  buses := [⟨1, 110⟩]
  lines := []
  transformers := []
  generators := []
  loads := []
  carriers := []
  loads_t_p_set := []

/-- C4 counterexample: on a network with a bus but no generators,
`load_shedding` does not inject anything (the source raises a
`TypeError`, modelled as `none`), so the claimed post-state fails. -/
theorem C4_load_shedding_cex : ¬ loadSheddingClaim W0 none none := by
  rintro ⟨n2, h, -⟩
  rw [show load_shedding W0 none none = none from rfl] at h
  cases h

/-- C4 (amended): on every network with at least one generator,
`load_shedding` appends one load-shedding generator per bus, with
marginal cost the keyword argument or 10000 and `p_nom` the keyword
argument or the maximum load `p_set` over all loads and snapshots, and
leaves every existing generator row unchanged. -/
theorem C4_load_shedding_amended (network : Network) (mc pn : Option ℚ)
    (hne : network.generators ≠ []) :
    loadSheddingClaim network mc pn := by
  have hmapne : network.generators.map Generator.name ≠ [] := by
    simpa [List.map_eq_nil_iff] using hne
  rcases hstart : (network.generators.map Generator.name).max? with _ | start
  · exact absurd (List.max?_eq_none_iff.mp hstart) hmapne
  · have hrun : load_shedding network mc pn
        = some { network with
            carriers := if "load" ∈ network.carriers then network.carriers
                        else network.carriers ++ ["load"],
            generators := network.generators ++
              ((List.range' start network.buses.length).zip network.buses).map
                (fun p => ⟨p.1, p.2.name, "load shedding", mc.getD 10000,
                  pn.getD (listMaxQ network.loads_t_p_set.flatten)⟩) } := by
      simp only [load_shedding, hstart]
    refine ⟨_, hrun, ?_, ?_, ?_⟩
    · exact List.take_left _ _
    · rw [List.drop_left, List.map_map]
      have hlen : (List.range' start network.buses.length).length
          = network.buses.length := List.length_range' ..
      calc ((List.range' start network.buses.length).zip network.buses).map
            (Generator.bus ∘ fun p => ⟨p.1, p.2.name, "load shedding",
              mc.getD 10000, pn.getD (listMaxQ network.loads_t_p_set.flatten)⟩)
          = ((List.range' start network.buses.length).zip network.buses).map
            (Bus.name ∘ Prod.snd) := rfl
        _ = (((List.range' start network.buses.length).zip
              network.buses).map Prod.snd).map Bus.name := by
            rw [List.map_map]
        _ = network.buses.map Bus.name := by
            rw [List.map_snd_zip _ _ (le_of_eq hlen.symm)]
    · intro g2 hg2
      rw [List.drop_left] at hg2
      rcases List.mem_map.mp hg2 with ⟨p, hp, rfl⟩
      exact ⟨rfl, rfl, rfl⟩

/-- A network with one bus, one generator (index 4) and a load series. -/
def W2 : Network where
  buses := [⟨1, 110⟩]
  lines := []
  transformers := []
  generators := [⟨4, 1, "gas", 3, 5⟩]
  loads := [⟨2, 1⟩]
  carriers := ["gas"]
  loads_t_p_set := [[2, 7]]

theorem C4_load_shedding_amended_witness :
    W2.generators ≠ [] ∧ loadSheddingClaim W2 none none :=
  ⟨List.cons_ne_nil _ _,
    C4_load_shedding_amended W2 none none (List.cons_ne_nil _ _)⟩

/-- C8: when the generator table is nonempty (all index labels being
decimal-integer strings is built into the numeric index model), the new
generators get the consecutive indices `start, start + 1, ...,
start + nums - 1` where `start` is the maximum existing generator index
and `nums` the number of buses; in particular `start` collides with the
index of an existing generator. -/
theorem C8_load_shedding_index_collision (network : Network)
    (mc pn : Option ℚ) (start : ℕ)
    (hmax : (network.generators.map Generator.name).max? = some start) :
    ∃ n2, load_shedding network mc pn = some n2
      ∧ (n2.generators.drop network.generators.length).map Generator.name
          = List.range' start network.buses.length
      ∧ start ∈ network.generators.map Generator.name := by
  have hrun : load_shedding network mc pn
      = some { network with
          carriers := if "load" ∈ network.carriers then network.carriers
                      else network.carriers ++ ["load"],
          generators := network.generators ++
            ((List.range' start network.buses.length).zip network.buses).map
              (fun p => ⟨p.1, p.2.name, "load shedding", mc.getD 10000,
                pn.getD (listMaxQ network.loads_t_p_set.flatten)⟩) } := by
    simp only [load_shedding, hmax]
  refine ⟨_, hrun, ?_, List.max?_mem max_choice hmax⟩
  rw [List.drop_left, List.map_map]
  have hlen : (List.range' start network.buses.length).length
      = network.buses.length := List.length_range' ..
  calc ((List.range' start network.buses.length).zip network.buses).map
        (Generator.name ∘ fun p => ⟨p.1, p.2.name, "load shedding",
          mc.getD 10000, pn.getD (listMaxQ network.loads_t_p_set.flatten)⟩)
      = ((List.range' start network.buses.length).zip network.buses).map
        Prod.fst := rfl
    _ = List.range' start network.buses.length := by
        rw [List.map_fst_zip _ _ (le_of_eq hlen)]

theorem C8_load_shedding_index_collision_witness :
    (W2.generators.map Generator.name).max? = some 4
    ∧ ∃ n2, load_shedding W2 none none = some n2
        ∧ (n2.generators.drop W2.generators.length).map Generator.name
            = List.range' 4 W2.buses.length
        ∧ 4 ∈ W2.generators.map Generator.name :=
  ⟨rfl, C8_load_shedding_index_collision W2 none none 4 rfl⟩

/-! ### results_to_csv (utilities.py lines 161 to 182)

`results_to_csv(network, path)` returns `None` immediately when
`path == False`; otherwise it creates the directory when missing
(`os.makedirs`), calls `network.export_to_csv_folder(path)`, reads back
`path/network.csv`, adds a `time` column with the solver time and writes
it back, and finally (when the network has a `Z` attribute) writes
`Z.csv` next to the digit-stripped path unless it already exists.  The
filesystem is modelled as a directory list plus a write log of
`(file name, content)` pairs; the CSV-folder export is represented by
its `network.csv` member, and the rewrite by the later log entry for the
same name.  The `Z` attribute is a boolean parameter. -/

/-- The `path` argument: the sentinel `False` or a directory path. -/
inductive PathArg where
  | falseArg : PathArg
  | somePath (p : String) : PathArg

/-- Content written to a file. -/
inductive FileData where
  | exportData (n : Network) : FileData
  | networkCsv (n : Network) (time : ℚ) : FileData
  | zData : FileData

/-- Filesystem state: existing directories and the write log. -/
structure FS where
  dirs : List String
  files : List (String × FileData)

/-- Python `str.strip` with the ten digit characters: remove leading and trailing digits. -/
def stripDigits (s : String) : String :=
  ⟨(((s.data.dropWhile Char.isDigit).reverse.dropWhile Char.isDigit).reverse)⟩

/-- Function `results_to_csv`, returning the Python return value (`None` on every
branch), the filesystem after the call and the network after the call. -/
def results_to_csv (network : Network) (path : PathArg) (hasZ : Bool)
    (solverTime : ℚ) (fs : FS) : Option Unit × FS × Network :=
  match path with
  | PathArg.falseArg => (none, fs, network)
  | PathArg.somePath p =>
    let fs1 : FS := if p ∈ fs.dirs then fs
      else { fs with dirs := fs.dirs ++ [p] }
    let fs2 : FS := { fs1 with
      files := fs1.files ++ [(p ++ "/network.csv", FileData.exportData network)] }
    let fs3 : FS := { fs2 with
      files := fs2.files ++
        [(p ++ "/network.csv", FileData.networkCsv network solverTime)] }
    let fs4 : FS :=
      if hasZ && !((fs3.files.map Prod.fst).contains (stripDigits p ++ "/Z.csv"))
      then { fs3 with files := fs3.files ++ [(stripDigits p ++ "/Z.csv", FileData.zData)] }
      else fs3
    (none, fs4, network)

/-- C6: with `path == False`, `results_to_csv` returns `None`, touches no
directory or file and leaves the network unchanged; with a path, it
creates the directory exactly when it does not exist, exports the
network there and then rewrites `network.csv` with the solver time (the
only other possible write is the `Z.csv` sidecar next to the
digit-stripped path). -/
theorem C6_results_to_csv_behaviour (network : Network) (hasZ : Bool)
    (t : ℚ) (fs : FS) :
    results_to_csv network PathArg.falseArg hasZ t fs = (none, fs, network)
    ∧ ∀ p : String,
        (p ∉ fs.dirs →
          (results_to_csv network (PathArg.somePath p) hasZ t fs).2.1.dirs
            = fs.dirs ++ [p])
        ∧ (p ∈ fs.dirs →
          (results_to_csv network (PathArg.somePath p) hasZ t fs).2.1.dirs
            = fs.dirs)
        ∧ ∃ ztail,
            (results_to_csv network (PathArg.somePath p) hasZ t fs).2.1.files
              = fs.files
                ++ [(p ++ "/network.csv", FileData.exportData network),
                    (p ++ "/network.csv", FileData.networkCsv network t)]
                ++ ztail
            ∧ ∀ e ∈ ztail,
                e = (stripDigits p ++ "/Z.csv", FileData.zData) := by
  refine ⟨rfl, fun p => ⟨fun hnot => ?_, fun hin => ?_, ?_⟩⟩
  · simp only [results_to_csv]
    split_ifs <;> simp_all
  · simp only [results_to_csv]
    split_ifs <;> simp_all
  · simp only [results_to_csv]
    split_ifs
    · refine ⟨[(stripDigits p ++ "/Z.csv", FileData.zData)], ?_, ?_⟩ <;>
        simp [List.append_assoc]
    · refine ⟨[], ?_, ?_⟩ <;> simp [List.append_assoc]
    · refine ⟨[(stripDigits p ++ "/Z.csv", FileData.zData)], ?_, ?_⟩ <;>
        simp [List.append_assoc]
    · refine ⟨[], ?_, ?_⟩ <;> simp [List.append_assoc]

/-! ### pf_post_lopf (utilities.py lines 196 to 220)

`pf_post_lopf` binds `network_pf = network` (an alias, not a copy),
reindexes `generators_t.p_set` to the generator columns, overwrites it
with the optimised dispatch `generators_t.p`, runs the non-linear power
flow on `scenario.timeindex`, and returns `network_pf`.  The third-party
`network.pf` solver call is modelled as appending its snapshot argument
to a call log on the state.  Object identity of the return value with
the mutated network of the caller is rendered in the state-passing model by
returning the pair (return value, caller state) built from one and the
same final state. -/

/-- The scenario object: only its `timeindex` is read. -/
structure Scenario where
  timeindex : List ℕ

/-- Power-flow-stage network state: generator index, the `p_set` and `p`
time series as (column label, series) pairs, and the log of `pf` calls. -/
structure PFNetwork where
  generators : List ℕ
  generators_t_p_set : List (ℕ × List ℚ)
  generators_t_p : List (ℕ × List ℚ)
  pf_log : List (List ℕ)

/-- Reindexing `DataFrame.reindex(columns=cols)`: one column per entry of `cols`,
taking the existing series when present and an empty (all-NaN) one
otherwise. -/
def reindexCols (cols : List ℕ) (df : List (ℕ × List ℚ)) :
    List (ℕ × List ℚ) :=
  cols.map (fun c => (c, ((df.find? (fun e => e.1 = c)).map Prod.snd).getD []))

/-- Solver call `network.pf(timeindex, use_seed=True)`: the PyPSA call,
modelled as recording the invocation on the state. -/
def pf_run (n : PFNetwork) (ti : List ℕ) : PFNetwork :=
  { n with pf_log := n.pf_log ++ [ti] }

/-- Function `pf_post_lopf`: returns (return value, caller state). -/
def pf_post_lopf (network : PFNetwork) (scenario : Scenario) :
    PFNetwork × PFNetwork :=
  let network_pf := network
  let n1 := { network_pf with
    generators_t_p_set :=
      reindexCols network_pf.generators network_pf.generators_t_p_set }
  let n2 := { n1 with generators_t_p_set := n1.generators_t_p }
  let n3 := pf_run n2 scenario.timeindex
  (n3, n3)

/-- C10: `pf_post_lopf` returns the very network it was passed (return
value and caller state coincide), with `generators_t.p_set` overwritten
by the optimised dispatch `generators_t.p` before the non-linear power
flow was run on `scenario.timeindex`. -/
theorem C10_pf_post_lopf_returns_mutated (network : PFNetwork)
    (scenario : Scenario) :
    (pf_post_lopf network scenario).1 = (pf_post_lopf network scenario).2
    ∧ (pf_post_lopf network scenario).1.generators_t_p_set
        = network.generators_t_p
    ∧ (pf_post_lopf network scenario).1.pf_log
        = network.pf_log ++ [scenario.timeindex] :=
  ⟨rfl, rfl, rfl⟩

/-! ### calc_line_losses (utilities.py lines 222 to 257)

`calc_line_losses` computes, per line and snapshot,
`s0 = sqrt(p0**2 + q0**2)`, `i0 = s0 * 1000000 / (v_nom * 1000)` and
`losses = i0**2 * r / 1000000`, stores the per-snapshot series in
`lines_t.losses`, assigns each line the sum of its series as `losses`,
and assigns every transformer `losses = s_nom * (1 - 0.998)`.  Because
of the square root the numeric domain here is `ℝ` (exact-real model of
the floating-point arithmetic); the printed totals at the end of the
function change no state and are not modelled. -/

/-- A line at the loss-calculation stage: the power-flow series
`lines_t.p0` and `lines_t.q0` (one entry per snapshot), the static
`v_nom` and `r` columns, and the two outputs. -/
structure LossLine where
  p0 : List ℝ
  q0 : List ℝ
  v_nom : ℝ
  r : ℝ
  losses_t : List ℝ
  losses : ℝ

/-- A transformer at the loss-calculation stage. -/
structure LossTransformer where
  s_nom : ℝ
  losses : ℝ

/-- Network state for the loss calculation. -/
structure LossNetwork where
  lines : List LossLine
  transformers : List LossTransformer

/-- Function `calc_line_losses`, as in the source: apparent power, then current,
then ohmic losses per snapshot, then the per-line totals and the
transformer losses. -/
noncomputable def calc_line_losses (network : LossNetwork) : LossNetwork where
  lines := network.lines.map (fun l =>
    let s0 := (l.p0.zip l.q0).map (fun pq => Real.sqrt (pq.1 ^ 2 + pq.2 ^ 2))
    let i0 := s0.map (fun s => s * 1000000 / (l.v_nom * 1000))
    let lt := i0.map (fun i => i ^ 2 * l.r / 1000000)
    { l with losses_t := lt, losses := lt.sum })
  transformers := network.transformers.map (fun t =>
    { t with losses := t.s_nom * (1 - 0.998) })

/-- The post-state claimed by C2, written from the claim text: per-line,
per-timestep losses equal `I ^ 2 * r / 10 ^ 6` with
`I = sqrt(p0 ^ 2 + q0 ^ 2) * 10 ^ 6 / (v_nom * 10 ^ 3)`, the total
losses of each line equal the sum of its per-timestep losses, and the
losses of every transformer equal `s_nom * (1 - 0.998)`. -/
noncomputable def calcLineLossesSpec (network : LossNetwork) : LossNetwork where
  lines := network.lines.map (fun l =>
    let lt := (l.p0.zip l.q0).map (fun pq =>
      (Real.sqrt (pq.1 ^ 2 + pq.2 ^ 2) * 10 ^ 6 / (l.v_nom * 10 ^ 3)) ^ 2
        * l.r / 10 ^ 6)
    { l with losses_t := lt, losses := lt.sum })
  transformers := network.transformers.map (fun t =>
    { t with losses := t.s_nom * (1 - 0.998) })

/-- C2: on every network, `calc_line_losses` produces exactly the
post-state described by the claim. -/
theorem C2_calc_line_losses_formula (network : LossNetwork) :
    calc_line_losses network = calcLineLossesSpec network := by
  simp only [calc_line_losses, calcLineLossesSpec, List.map_map]
  congr 1
  refine List.map_congr_left (fun l _ => ?_)
  have hmap :
      (l.p0.zip l.q0).map
          ((fun i => i ^ 2 * l.r / 1000000) ∘
            (fun s => s * 1000000 / (l.v_nom * 1000)) ∘
            (fun pq => Real.sqrt (pq.1 ^ 2 + pq.2 ^ 2)))
        = (l.p0.zip l.q0).map (fun pq =>
            (Real.sqrt (pq.1 ^ 2 + pq.2 ^ 2) * 10 ^ 6 / (l.v_nom * 10 ^ 3)) ^ 2
              * l.r / 10 ^ 6) :=
    List.map_congr_left (fun pq _ => by norm_num)
  rw [hmap]
